import Mathlib

/-!
Shallow embedding of the EXIF header codec and scanner of the go-exif
repository (files exif.go, exif_scanner.go, utility.go).

Bytes are modelled as natural numbers; byte sources are lists of bytes
read through a model of the Go bytes.Reader (the reader used by
SearchAndExtractExif and NewScannerLimitFromBytes). Go int64 values are
modelled as Int; fallible operations return their error as an explicit
value of the Err type below. Go panics that the claims exercise are also
surfaced as error values.
-/

namespace GoExif

/-- Error values of the embedded code.  eof models io.EOF; noExif models
ErrNoExif ("no exif data"); headerError models ErrExifHeaderError
("exif header error"); negativePosition models the bytes.Reader seek
error for a negative position; negativeMakeLen models the Go panic of
make with a negative length; fuelOut is an artifact of the fuel-indexed
search loop and is never produced for the fuel NewScannerLimit supplies. -/
inductive Err where
  | eof
  | noExif
  | headerError
  | negativePosition
  | negativeMakeLen
  | fuelOut
deriving DecidableEq

/-- binary.ByteOrder restricted to the two instances the code uses. -/
inductive ByteOrder where
  | big
  | little
deriving DecidableEq

/-- ExifBigEndianSignature = [4]byte\x7b'M', 'M', 0x00, 0x2a\x7d. -/
def ExifBigEndianSignature : List Nat := [77, 77, 0x00, 0x2a]

/-- ExifLittleEndianSignature = [4]byte\x7b'I', 'I', 0x2a, 0x00\x7d. -/
def ExifLittleEndianSignature : List Nat := [73, 73, 0x2a, 0x00]

/-- ExifSignatureLength = 8. -/
def ExifSignatureLength : Nat := 8

structure ExifHeader where
  byteOrder : ByteOrder
  firstIfdOffset : Nat
deriving DecidableEq

instance {ε α : Type} [DecidableEq ε] [DecidableEq α] : DecidableEq (Except ε α) := fun a b => by
  cases a <;> cases b
  case error.error e1 e2 => exact decidable_of_iff (e1 = e2) (by simp)
  case error.ok => exact isFalse (by simp)
  case ok.error => exact isFalse (by simp)
  case ok.ok a1 a2 => exact decidable_of_iff (a1 = a2) (by simp)

/-- binary.BigEndian.Uint32 on a 4-byte slice. -/
def beUint32 (bs : List Nat) : Nat :=
  match bs with
  | [b0, b1, b2, b3] => ((b0 * 256 + b1) * 256 + b2) * 256 + b3
  | _ => 0

/-- binary.ByteOrder.Uint32: big endian reads the bytes as written,
little endian reads them reversed. -/
def byteOrderUint32 (o : ByteOrder) (bs : List Nat) : Nat :=
  match o with
  | .big => beUint32 bs
  | .little => beUint32 bs.reverse

/-- binary.ByteOrder.PutUint32 as used by binary.Write on a uint32. -/
def putUint32 (o : ByteOrder) (v : Nat) : List Nat :=
  match o with
  | .big => [v / 16777216 % 256, v / 65536 % 256, v / 256 % 256, v % 256]
  | .little => [v % 256, v / 256 % 256, v / 65536 % 256, v / 16777216 % 256]

/-- ParseExifHeader (exif.go).  Returns ErrNoExif when fewer than 8 bytes
are supplied, selects the byte order from the first four bytes (ErrNoExif
when neither signature matches) and decodes bytes 4..7 as the first-IFD
offset in the selected order. -/
def ParseExifHeader (data : List Nat) : Except Err ExifHeader :=
  if data.length < ExifSignatureLength then .error .noExif
  else if data.take 4 = ExifBigEndianSignature then
    .ok ⟨.big, byteOrderUint32 .big ((data.drop 4).take 4)⟩
  else if data.take 4 = ExifLittleEndianSignature then
    .ok ⟨.little, byteOrderUint32 .little ((data.drop 4).take 4)⟩
  else .error .noExif

/-- BuildExifHeader (exif.go): the signature selected by the byte order
(the Go code emits the little-endian signature for any order that is not
binary.BigEndian) followed by the 4 offset bytes written in that order. -/
def BuildExifHeader (byteOrder : ByteOrder) (firstIfdOffset : Nat) : List Nat :=
  (if byteOrder = .big then ExifBigEndianSignature else ExifLittleEndianSignature)
    ++ putUint32 byteOrder firstIfdOffset

/-- Model of Go bytes.Reader: the backing bytes and the read position. -/
structure Reader where
  s : List Nat
  i : Int
deriving DecidableEq

/-- bytes.Reader.Read into a buffer of length n: io.EOF when the position
is at or past the end, otherwise up to n bytes from the position with no
error (a partial read is NOT an error). -/
def readerRead (r : Reader) (n : Nat) : List Nat × Nat × Reader × Option Err :=
  if (r.s.length : Int) ≤ r.i then ([], 0, r, some .eof)
  else
    let chunk := (r.s.drop r.i.toNat).take n
    (chunk, chunk.length, { r with i := r.i + chunk.length }, none)

/-- bytes.Reader.Seek with whence io.SeekStart: error on a negative
target (returning position 0), otherwise sets the position, which may lie
beyond the end of the data. -/
def readerSeek (r : Reader) (off : Int) : Int × Reader × Option Err :=
  if off < 0 then (0, r, some .negativePosition)
  else (off, { r with i := off }, none)

/-- Scanner (exif_scanner.go). -/
structure Scanner where
  r : Reader
  scanLimit : Int
  size : Int
  start : Int
  current : Int
deriving DecidableEq

/-- DefaultStartLimit = 5 MB. -/
def DefaultStartLimit : Int := 5242880

/-- DefaultScanLimit = 1 MB. -/
def DefaultScanLimit : Int := 1048576

/-- Scanner.Remaining = Size - Current. -/
def Scanner.Remaining (s : Scanner) : Int := s.size - s.current

/-- Scanner.Read: reads into the caller buffer p through the underlying
reader and advances Current by the byte count actually read.  The first
component is the buffer p after the read wrote its prefix. -/
def Scanner.Read (s : Scanner) (p : List Nat) : List Nat × Nat × Scanner × Option Err :=
  match readerRead s.r p.length with
  | (chunk, n, rr, e) =>
    (chunk ++ p.drop n, n, { s with r := rr, current := s.current + n }, e)

/-- Scanner.ReadAll: ioutil.ReadAll on the underlying reader (reads to
the end with no error) and advances Current by the number of bytes read. -/
def Scanner.ReadAll (s : Scanner) : List Nat × Scanner × Option Err :=
  let b := s.r.s.drop s.r.i.toNat
  (b, { s with r := { s.r with i := s.r.i + b.length },
               current := s.current + b.length }, none)

/-- Scanner.peekAll: ReadAll then seek back to the old Current. -/
def Scanner.peekAll (s : Scanner) : List Nat × Scanner × Option Err :=
  let oldCurrent := s.current
  match s.ReadAll with
  | (b, s1, some e) => (b, s1, some e)
  | (b, s1, none) =>
    match readerSeek s1.r oldCurrent with
    | (pos, rr, e) => (b, { s1 with r := rr, current := pos }, e)

/-- Scanner.Peek: n = 0 delegates to peekAll; otherwise allocate an
n-byte zero buffer (Go make panics for negative n, surfaced here as
negativeMakeLen), read into it, add the read count to Current a second
time as the Go code does, and on success seek back to the old Current. -/
def Scanner.Peek (s : Scanner) (n : Int) : List Nat × Scanner × Option Err :=
  if n = 0 then s.peekAll
  else if n < 0 then ([], s, some .negativeMakeLen)
  else
    let oldCurrent := s.current
    let b0 := List.replicate n.toNat 0
    match s.Read b0 with
    | (b, readN, s1, e) =>
      let s2 := { s1 with current := s1.current + readN }
      match e with
      | some err => (b, s2, some err)
      | none =>
        match readerSeek s2.r oldCurrent with
        | (pos, rr, e2) => (b, { s2 with r := rr, current := pos }, e2)

/-- Scanner.PeekAndSeek: like Peek but on success seeks to
oldCurrent + offset instead of back to oldCurrent.  For n = 0 it
delegates to peekAll, ignoring the offset. -/
def Scanner.PeekAndSeek (s : Scanner) (n offset : Int) : List Nat × Scanner × Option Err :=
  if n = 0 then s.peekAll
  else if n < 0 then ([], s, some .negativeMakeLen)
  else
    let oldCurrent := s.current
    let b0 := List.replicate n.toNat 0
    match s.Read b0 with
    | (b, readN, s1, e) =>
      let s2 := { s1 with current := s1.current + readN }
      match e with
      | some err => (b, s2, some err)
      | none =>
        match readerSeek s2.r (oldCurrent + offset) with
        | (pos, rr, e2) => (b, { s2 with r := rr, current := pos }, e2)

/-- Scanner.Discard: seek to Current + n (no bounds check against Size)
and return the distance moved. -/
def Scanner.Discard (s : Scanner) (n : Int) : Int × Scanner × Option Err :=
  let oldCurrent := s.current
  match readerSeek s.r (oldCurrent + n) with
  | (pos, rr, e) => (pos - oldCurrent, { s with r := rr, current := pos }, e)

/-- The search loop of NewScannerLimit, indexed by fuel to make the
recursion structural.  Each iteration: stop with ErrNoExif once Current
exceeds a positive startLimit; PeekAndSeek an 8-byte window and advance
one byte (io.EOF becomes ErrNoExif); increment Start; try
ParseExifHeader on the window, continuing on ErrNoExif and breaking with
the current state on success. -/
def scanLoop : Nat → Int → Scanner → Except Err Scanner
  | 0, _, _ => .error .fuelOut
  | Nat.succ fuel, startLimit, s =>
    if startLimit > 0 ∧ s.current > startLimit then .error .noExif
    else
      match s.PeekAndSeek (ExifSignatureLength : Int) 1 with
      | (_, _, some Err.eof) => .error .noExif
      | (_, _, some e) => .error e
      | (window, s1, none) =>
        let s2 : Scanner := { s1 with start := s1.start + 1 }
        match ParseExifHeader window with
        | .error Err.noExif => scanLoop fuel startLimit s2
        | .error e => .error e
        | .ok _ => .ok s2

/-- Fuel that is always sufficient for the search loop: the loop stops no
later than at source exhaustion or one byte past the start limit. -/
def scanFuel (data : List Nat) (startLimit : Int) : Nat :=
  data.length + startLimit.toNat + 2

/-- NewScannerLimit over a bytes.Reader source: run the search loop from
position 0, then move back one byte and decrement Start so that both
denote the found header offset. -/
def NewScannerLimit (data : List Nat) (size startLimit scanLimit : Int) :
    Except Err Scanner :=
  let s0 : Scanner :=
    { r := ⟨data, 0⟩, scanLimit := scanLimit, size := size, start := 0, current := 0 }
  match scanLoop (scanFuel data startLimit) startLimit s0 with
  | .error e => .error e
  | .ok s =>
    match s.Discard (-1) with
    | (_, _, some e) => .error e
    | (_, s1, none) => .ok { s1 with start := s1.start - 1 }

/-- NewScanner: the default limits. -/
def NewScanner (data : List Nat) (size : Int) : Except Err Scanner :=
  NewScannerLimit data size DefaultStartLimit DefaultScanLimit

/-- NewScannerNoLimit: both limits zero. -/
def NewScannerNoLimit (data : List Nat) (size : Int) : Except Err Scanner :=
  NewScannerLimit data size 0 0

/-- NewScannerLimitFromBytes: source size is the byte count. -/
def NewScannerLimitFromBytes (b : List Nat) (startLimit scanLimit : Int) :
    Except Err Scanner :=
  NewScannerLimit b (b.length : Int) startLimit scanLimit

/-- The buffer Peek and PeekAndSeek return for a positive count n at
offset k: the available bytes followed by the untouched zero bytes of the
allocated buffer. -/
def peekWindow (data : List Nat) (k n : Nat) : List Nat :=
  let chunk := (data.drop k).take n
  chunk ++ List.replicate (n - chunk.length) 0

/-- The 8-byte probe window the search loop examines at offset k. -/
def windowAt (data : List Nat) (k : Nat) : List Nat :=
  peekWindow data k 8

/-- Whether ParseExifHeader accepts a window. -/
def parseOk (w : List Nat) : Bool :=
  match ParseExifHeader w with
  | .ok _ => true
  | .error _ => false

/-- A full 8-byte EXIF header lies inside the data at offset k. -/
def ExifHeaderAt (data : List Nat) (k : Nat) : Prop :=
  k + 8 ≤ data.length ∧ parseOk ((data.drop k).take 8) = true

instance (data : List Nat) (k : Nat) : Decidable (ExifHeaderAt data k) := by
  unfold ExifHeaderAt; exact inferInstance

/-- The scanner state at the head of the search-loop iteration probing
offset k: reader position, Start and Current all equal k. -/
def loopState (data : List Nat) (size scanLimit : Int) (k : Nat) : Scanner :=
  { r := ⟨data, (k : Int)⟩, scanLimit := scanLimit, size := size,
    start := (k : Int), current := (k : Int) }

/-- Scanner used by the concrete witnesses: fresh over the given bytes. -/
def mkScanner (data : List Nat) (size : Int) : Scanner :=
  { r := ⟨data, 0⟩, scanLimit := 0, size := size, start := 0, current := 0 }

/-- The Start field of a successful construction, none on failure. -/
def startOf : Except Err Scanner → Option Int
  | .ok s => some s.start
  | .error _ => none

/-- Dropping from a replicate list leaves a shorter replicate list. -/
theorem drop_of_replicate (n i : Nat) :
    (List.replicate n (0 : Nat)).drop i = List.replicate (n - i) 0 := by
  induction n generalizing i with
  | zero => simp
  | succ m ih =>
    cases i with
    | zero => simp
    | succ j => simp [List.replicate_succ, ih j]

/-- A seek to a nonnegative position always succeeds. -/
theorem readerSeek_nonneg (r : Reader) (off : Int) (h : 0 ≤ off) :
    readerSeek r off = (off, { r with i := off }, none) := by
  unfold readerSeek
  rw [if_neg (by omega)]

/-- Evaluation of Discard when the target position is nonnegative. -/
theorem discard_eval (s : Scanner) (n : Int) (h : 0 ≤ s.current + n) :
    s.Discard n =
      (n, { s with r := { s.r with i := s.current + n }, current := s.current + n },
        none) := by
  simp only [Scanner.Discard, readerSeek_nonneg s.r (s.current + n) h, Prod.mk.injEq]
  exact ⟨by omega, trivial⟩

/-- C2: for both byte orders and every unsigned 32-bit offset, parsing
the 8 bytes produced by BuildExifHeader returns exactly the order and
offset that were encoded. -/
theorem buildExifHeader_parse_roundtrip (o : ByteOrder) (off : Nat)
    (h : off < 4294967296) :
    ParseExifHeader (BuildExifHeader o off) = .ok ⟨o, off⟩ := by
  cases o with
  | big =>
    have h1 : ParseExifHeader (BuildExifHeader .big off) =
        .ok ⟨.big, ((off / 16777216 % 256 * 256 + off / 65536 % 256) * 256
          + off / 256 % 256) * 256 + off % 256⟩ := rfl
    rw [h1, show ((off / 16777216 % 256 * 256 + off / 65536 % 256) * 256
      + off / 256 % 256) * 256 + off % 256 = off from by omega]
  | little =>
    have h1 : ParseExifHeader (BuildExifHeader .little off) =
        .ok ⟨.little, ((off / 16777216 % 256 * 256 + off / 65536 % 256) * 256
          + off / 256 % 256) * 256 + off % 256⟩ := rfl
    rw [h1, show ((off / 16777216 % 256 * 256 + off / 65536 % 256) * 256
      + off / 256 % 256) * 256 + off % 256 = off from by omega]

/-- C2 witness: the round-trip at the concrete input
(little endian, 0xFFFFFFFE). -/
theorem buildExifHeader_parse_roundtrip_witness :
    ParseExifHeader (BuildExifHeader .little 4294967294) =
      .ok ⟨.little, 4294967294⟩ :=
  buildExifHeader_parse_roundtrip .little 4294967294 (by decide)

/-- C3: on a window of at least 8 bytes, ParseExifHeader selects big
endian for the MM signature, little endian for the II signature, rejects
any other first four bytes with ErrNoExif, and on success decodes bytes
4..7 as the first-IFD offset in the selected byte order. -/
theorem parseExifHeader_signature_cases (data : List Nat) (h : 8 ≤ data.length) :
    (data.take 4 = ExifBigEndianSignature →
      ParseExifHeader data = .ok ⟨.big, byteOrderUint32 .big ((data.drop 4).take 4)⟩)
  ∧ (data.take 4 = ExifLittleEndianSignature →
      ParseExifHeader data = .ok ⟨.little, byteOrderUint32 .little ((data.drop 4).take 4)⟩)
  ∧ (data.take 4 ≠ ExifBigEndianSignature → data.take 4 ≠ ExifLittleEndianSignature →
      ParseExifHeader data = .error .noExif) := by
  have hlen : ¬ data.length < ExifSignatureLength := by
    simp only [ExifSignatureLength]; omega
  refine ⟨fun hb => ?_, fun hl => ?_, fun hb hl => ?_⟩
  · unfold ParseExifHeader
    rw [if_neg hlen, if_pos hb]
  · have hb : ¬ data.take 4 = ExifBigEndianSignature := by
      rw [hl]; decide
    unfold ParseExifHeader
    rw [if_neg hlen, if_neg hb, if_pos hl]
  · unfold ParseExifHeader
    rw [if_neg hlen, if_neg hb, if_neg hl]

/-- C3 witness: a concrete big-endian window whose offset bytes decode to
256. -/
theorem parseExifHeader_signature_cases_witness :
    ParseExifHeader [77, 77, 0, 42, 0, 0, 1, 0] =
      .ok ⟨.big, byteOrderUint32 .big (([77, 77, 0, 42, 0, 0, 1, 0].drop 4).take 4)⟩ :=
  (parseExifHeader_signature_cases [77, 77, 0, 42, 0, 0, 1, 0] (by decide)).1 (by decide)

/-- C8 counterexample: parsed directly, a zero window (unrecognized
signature) and a short window both return ErrNoExif, not the distinct
ErrExifHeaderError value the claim names. -/
theorem parseExifHeader_direct_error_counterexample :
    ParseExifHeader (List.replicate 8 0) = .error .noExif
  ∧ ParseExifHeader [1, 2, 3] = .error .noExif
  ∧ ParseExifHeader (List.replicate 8 0) ≠ .error .headerError
  ∧ ParseExifHeader [1, 2, 3] ≠ .error .headerError := by decide

/-- C8 amended: for a short or signature-unrecognized window,
ParseExifHeader returns ErrNoExif even when called directly; the declared
ErrExifHeaderError value is distinct from ErrNoExif but is not the error
this path produces. -/
theorem parseExifHeader_direct_error_is_noExif (data : List Nat)
    (h : data.length < 8 ∨
      (data.take 4 ≠ ExifBigEndianSignature ∧ data.take 4 ≠ ExifLittleEndianSignature)) :
    ParseExifHeader data = .error .noExif ∧ Err.noExif ≠ Err.headerError := by
  refine ⟨?_, by decide⟩
  unfold ParseExifHeader
  rcases h with h | ⟨h1, h2⟩
  · rw [if_pos (by simpa [ExifSignatureLength] using h)]
  · by_cases hlen : data.length < ExifSignatureLength
    · rw [if_pos hlen]
    · rw [if_neg hlen, if_neg h1, if_neg h2]

/-- C8 amended witness: the zero window at the concrete input. -/
theorem parseExifHeader_direct_error_is_noExif_witness :
    ParseExifHeader (List.replicate 8 0) = .error .noExif
      ∧ Err.noExif ≠ Err.headerError :=
  parseExifHeader_direct_error_is_noExif (List.replicate 8 0) (by decide)

/-- ParseExifHeader only ever fails with ErrNoExif. -/
theorem parseExifHeader_error_noExif (d : List Nat) (e : Err)
    (h : ParseExifHeader d = .error e) : e = .noExif := by
  unfold ParseExifHeader at h
  split_ifs at h <;> simp_all

/-- When a full 8-byte window exists at offset k, the probe window is
that window, with no padding. -/
theorem windowAt_of_le (data : List Nat) (k : Nat) (h : k + 8 ≤ data.length) :
    windowAt data k = (data.drop k).take 8 := by
  simp only [windowAt, peekWindow]
  rw [show ((data.drop k).take 8).length = 8 by
    simp only [List.length_take, List.length_drop]; omega]
  simp

/-- The loop state at the successor offset, written with Int fields. -/
theorem loopState_succ (data : List Nat) (sz sl : Int) (k : Nat) :
    loopState data sz sl (k + 1) =
      { r := ⟨data, (k : Int) + 1⟩, scanLimit := sl, size := sz,
        start := (k : Int) + 1, current := (k : Int) + 1 } := by
  simp [loopState]

/-- Evaluation of the PeekAndSeek call the search loop makes at offset k:
source exhausted means io.EOF with the state unchanged; otherwise the
probe window comes back and the cursor has advanced one byte. -/
theorem peekAndSeek_loop_eval (data : List Nat) (sz sl : Int) (k : Nat) :
    (loopState data sz sl k).PeekAndSeek (ExifSignatureLength : Int) 1 =
      if data.length ≤ k then
        (List.replicate 8 0, loopState data sz sl k, some .eof)
      else
        (windowAt data k,
          { r := ⟨data, (k : Int) + 1⟩, scanLimit := sl, size := sz,
            start := (k : Int), current := (k : Int) + 1 }, none) := by
  by_cases hk : data.length ≤ k
  · rw [if_pos hk]
    have hge : ((data.length : Int)) ≤ ((k : Int)) := by exact_mod_cast hk
    unfold Scanner.PeekAndSeek
    rw [if_neg (by decide : ¬ ((ExifSignatureLength : Nat) : Int) = 0),
      if_neg (by decide : ¬ ((ExifSignatureLength : Nat) : Int) < 0)]
    simp only [loopState, Scanner.Read, readerRead, List.length_replicate, if_pos hge,
      List.nil_append, List.drop_zero]
    norm_num [ExifSignatureLength]
    rfl
  · rw [if_neg hk]
    have hlt : ¬ ((data.length : Int)) ≤ ((k : Int)) := by omega
    have h1 : (0 : Int) ≤ (k : Int) + 1 := by positivity
    unfold Scanner.PeekAndSeek
    rw [if_neg (by decide : ¬ ((ExifSignatureLength : Nat) : Int) = 0),
      if_neg (by decide : ¬ ((ExifSignatureLength : Nat) : Int) < 0)]
    simp only [loopState, Scanner.Read, readerRead, List.length_replicate, if_neg hlt,
      Int.toNat_ofNat, drop_of_replicate, readerSeek_nonneg _ ((k : Int) + 1) h1,
      windowAt, peekWindow]
    norm_num [ExifSignatureLength]

/-- One iteration of the search loop at offset k: stop past a positive
limit, stop at source exhaustion, break on a parsed window, otherwise
continue at the next offset. -/
theorem scanLoop_step (data : List Nat) (sz sl L : Int) (k fuel : Nat) :
    scanLoop (fuel + 1) L (loopState data sz sl k) =
      if L > 0 ∧ (k : Int) > L then .error .noExif
      else if data.length ≤ k then .error .noExif
      else if parseOk (windowAt data k) then .ok (loopState data sz sl (k + 1))
      else scanLoop fuel L (loopState data sz sl (k + 1)) := by
  rw [scanLoop]
  by_cases hlim : L > 0 ∧ (k : Int) > L
  · rw [if_pos (show L > 0 ∧ (loopState data sz sl k).current > L from hlim),
      if_pos hlim]
  · rw [if_neg (show ¬ (L > 0 ∧ (loopState data sz sl k).current > L) from hlim),
      if_neg hlim, peekAndSeek_loop_eval data sz sl k]
    by_cases hk : data.length ≤ k
    · rw [if_pos hk, if_pos hk]
    · rw [if_neg hk, if_neg hk, loopState_succ]
      cases hp : ParseExifHeader (windowAt data k) with
      | ok h =>
        rw [if_pos (by simp [parseOk, hp])]
        simp only [hp, loopState]
      | error e =>
        rw [parseExifHeader_error_noExif _ _ hp] at hp
        rw [if_neg (by simp [parseOk, hp])]
        simp only [hp, loopState]

/-- The returned Peek buffer always has exactly the requested length. -/
theorem peekWindow_length (data : List Nat) (k n : Nat) :
    (peekWindow data k n).length = n := by
  unfold peekWindow
  simp only [List.length_append, List.length_replicate, List.length_take]
  omega

/-- Evaluation of Peek with a positive count when at least one byte is
available: the zero-padded window comes back, no error is reported and
the scanner state is exactly the input state. -/
theorem peek_pos_eval (ds : List Nat) (sl sz st cur n : Int)
    (hn : 0 < n) (h0 : 0 ≤ cur) (hlt : cur < (ds.length : Int)) :
    Scanner.Peek ⟨⟨ds, cur⟩, sl, sz, st, cur⟩ n =
      (peekWindow ds cur.toNat n.toNat, ⟨⟨ds, cur⟩, sl, sz, st, cur⟩, none) := by
  have hc : ¬ ((ds.length : Int) ≤ cur) := by omega
  unfold Scanner.Peek
  rw [if_neg (by omega : ¬ n = 0), if_neg (by omega : ¬ n < 0)]
  simp only [Scanner.Read, readerRead, List.length_replicate, if_neg hc,
    drop_of_replicate, readerSeek_nonneg _ cur h0, peekWindow]

/-- Evaluation of Peek with a positive count when the cursor is at or
past the end of the data: io.EOF, an all-zero buffer, unchanged state. -/
theorem peek_eof_eval (ds : List Nat) (sl sz st cur n : Int)
    (hn : 0 < n) (hge : (ds.length : Int) ≤ cur) :
    Scanner.Peek ⟨⟨ds, cur⟩, sl, sz, st, cur⟩ n =
      (List.replicate n.toNat 0, ⟨⟨ds, cur⟩, sl, sz, st, cur⟩, some .eof) := by
  unfold Scanner.Peek
  rw [if_neg (by omega : ¬ n = 0), if_neg (by omega : ¬ n < 0)]
  simp only [Scanner.Read, readerRead, List.length_replicate, if_pos hge,
    List.nil_append, List.drop_zero]
  norm_num

/-- Evaluation of peekAll from a consistent state: all bytes from the
cursor to the end come back and the state is unchanged. -/
theorem peekAll_eval (ds : List Nat) (sl sz st cur : Int) (h0 : 0 ≤ cur) :
    Scanner.peekAll ⟨⟨ds, cur⟩, sl, sz, st, cur⟩ =
      (ds.drop cur.toNat, ⟨⟨ds, cur⟩, sl, sz, st, cur⟩, none) := by
  simp only [Scanner.peekAll, Scanner.ReadAll, readerSeek_nonneg _ cur h0]

/-- C6 counterexample: a scanner with 3 bytes remaining answers Peek 5
with no error and a 5-byte zero-padded buffer, not a short-read failure. -/
theorem peek_short_read_counterexample :
    (mkScanner [1, 2, 3] 3).Remaining < 5
  ∧ ((mkScanner [1, 2, 3] 3).Peek 5).2.2 = none
  ∧ ((mkScanner [1, 2, 3] 3).Peek 5).1 = [1, 2, 3, 0, 0] := by decide

/-- C6 amended: Peek with a positive count fails with io.EOF exactly when
the cursor sits at or past the end of the data; when fewer than n bytes
remain but at least one, it succeeds and returns an n-byte buffer holding
the available bytes followed by zeros. -/
theorem peek_short_read (s : Scanner) (n : Int) (hn : 0 < n)
    (hwf : s.r.i = s.current) (h0 : 0 ≤ s.current) :
    ((s.r.s.length : Int) ≤ s.current →
        (s.Peek n).2.2 = some .eof ∧ (s.Peek n).1 = List.replicate n.toNat 0)
  ∧ (s.current < (s.r.s.length : Int) →
        (s.Peek n).2.2 = none
      ∧ (s.Peek n).1 = peekWindow s.r.s s.current.toNat n.toNat
      ∧ (s.Peek n).1.length = n.toNat) := by
  obtain ⟨⟨ds, i⟩, sl, sz, st, cur⟩ := s
  dsimp only at hwf h0 ⊢
  subst hwf
  refine ⟨fun hge => ?_, fun hlt => ?_⟩
  · rw [peek_eof_eval ds sl sz st i n hn hge]
    exact ⟨rfl, rfl⟩
  · rw [peek_pos_eval ds sl sz st i n hn h0 hlt]
    exact ⟨rfl, rfl, peekWindow_length ds i.toNat n.toNat⟩

/-- C6 amended witness: over two bytes, Peek 8 at the start succeeds with
a padded buffer and Peek at the end reports io.EOF. -/
theorem peek_short_read_witness :
    (((mkScanner [1, 2] 2).r.s.length : Int) ≤ (mkScanner [1, 2] 2).current →
        ((mkScanner [1, 2] 2).Peek 8).2.2 = some .eof
      ∧ ((mkScanner [1, 2] 2).Peek 8).1 = List.replicate (8 : Int).toNat 0)
  ∧ ((mkScanner [1, 2] 2).current < ((mkScanner [1, 2] 2).r.s.length : Int) →
        ((mkScanner [1, 2] 2).Peek 8).2.2 = none
      ∧ ((mkScanner [1, 2] 2).Peek 8).1 =
          peekWindow (mkScanner [1, 2] 2).r.s (mkScanner [1, 2] 2).current.toNat (8 : Int).toNat
      ∧ ((mkScanner [1, 2] 2).Peek 8).1.length = (8 : Int).toNat) :=
  peek_short_read (mkScanner [1, 2] 2) 8 (by decide) rfl (by decide)

/-- C7: with n positive and at least n bytes remaining, Peek leaves the
scanner state (in particular Current) exactly as it was, so a second
consecutive Peek returns byte-for-byte the same result. -/
theorem peek_twice_identical (s : Scanner) (n : Int) (hn : 0 < n)
    (hwf : s.r.i = s.current) (h0 : 0 ≤ s.current)
    (hrem : s.current + n ≤ (s.r.s.length : Int)) :
    ((s.Peek n).2.1).Peek n = s.Peek n
  ∧ (((s.Peek n).2.1).Peek n).1 = (s.Peek n).1
  ∧ (s.Peek n).2.1.current = s.current
  ∧ (((s.Peek n).2.1).Peek n).2.1.current = s.current := by
  obtain ⟨⟨ds, i⟩, sl, sz, st, cur⟩ := s
  dsimp only at hwf h0 hrem ⊢
  subst hwf
  have h1 := peek_pos_eval ds sl sz st i n hn h0 (by omega)
  simp only [h1]
  exact ⟨trivial, trivial, trivial, trivial⟩

/-- C7 witness: the concrete 4-byte source with n = 2. -/
theorem peek_twice_identical_witness :
    (((mkScanner [5, 6, 7, 8] 4).Peek 2).2.1).Peek 2 = (mkScanner [5, 6, 7, 8] 4).Peek 2
  ∧ ((((mkScanner [5, 6, 7, 8] 4).Peek 2).2.1).Peek 2).1 = ((mkScanner [5, 6, 7, 8] 4).Peek 2).1
  ∧ ((mkScanner [5, 6, 7, 8] 4).Peek 2).2.1.current = (mkScanner [5, 6, 7, 8] 4).current
  ∧ ((((mkScanner [5, 6, 7, 8] 4).Peek 2).2.1).Peek 2).2.1.current
      = (mkScanner [5, 6, 7, 8] 4).current :=
  peek_twice_identical (mkScanner [5, 6, 7, 8] 4) 2 (by decide) rfl (by decide) (by decide)

/-- C9: Peek 0 and PeekAndSeek 0 (any offset) return every byte from
Current to the end of the source, leave the state unchanged, and the
result is nonempty whenever the cursor is strictly before the end. -/
theorem peek_zero_returns_rest (s : Scanner) (off : Int)
    (hwf : s.r.i = s.current) (h0 : 0 ≤ s.current) :
    s.Peek 0 = (s.r.s.drop s.current.toNat, s, none)
  ∧ s.PeekAndSeek 0 off = (s.r.s.drop s.current.toNat, s, none)
  ∧ (s.current < (s.r.s.length : Int) → s.r.s.drop s.current.toNat ≠ []) := by
  obtain ⟨⟨ds, i⟩, sl, sz, st, cur⟩ := s
  dsimp only at hwf h0 ⊢
  subst hwf
  have hall := peekAll_eval ds sl sz st i h0
  refine ⟨?_, ?_, fun hlt => ?_⟩
  · unfold Scanner.Peek
    rw [if_pos rfl, hall]
  · unfold Scanner.PeekAndSeek
    rw [if_pos rfl, hall]
  · rw [Ne, List.drop_eq_nil_iff]
    omega

/-- C9 witness: the concrete 2-byte source at the start. -/
theorem peek_zero_returns_rest_witness :
    (mkScanner [9, 8] 2).Peek 0 =
      ((mkScanner [9, 8] 2).r.s.drop (mkScanner [9, 8] 2).current.toNat,
        mkScanner [9, 8] 2, none)
  ∧ (mkScanner [9, 8] 2).PeekAndSeek 0 7 =
      ((mkScanner [9, 8] 2).r.s.drop (mkScanner [9, 8] 2).current.toNat,
        mkScanner [9, 8] 2, none)
  ∧ ((mkScanner [9, 8] 2).current < ((mkScanner [9, 8] 2).r.s.length : Int) →
      (mkScanner [9, 8] 2).r.s.drop (mkScanner [9, 8] 2).current.toNat ≠ []) :=
  peek_zero_returns_rest (mkScanner [9, 8] 2) 7 rfl (by decide)

/-- C10: Discard performs no bounds check against Size: whenever the
underlying seek succeeds (target nonnegative) it moves Current by n and
returns n, even past the end of the source, after which Remaining is
negative. -/
theorem discard_unchecked (s : Scanner) (n : Int) (h : 0 ≤ s.current + n) :
    (s.Discard n).1 = n
  ∧ (s.Discard n).2.1.current = s.current + n
  ∧ (s.Discard n).2.2 = none
  ∧ (s.size < s.current + n → ((s.Discard n).2.1).Remaining < 0) := by
  rw [discard_eval s n h]
  refine ⟨rfl, rfl, rfl, fun hs => ?_⟩
  unfold Scanner.Remaining
  simp only
  omega

/-- C10 witness: a 3-byte source, Discard 5 moves Current to 5 and the
Remaining becomes negative. -/
theorem discard_unchecked_witness :
    ((mkScanner [1, 2, 3] 3).Discard 5).1 = 5
  ∧ ((mkScanner [1, 2, 3] 3).Discard 5).2.1.current = (mkScanner [1, 2, 3] 3).current + 5
  ∧ ((mkScanner [1, 2, 3] 3).Discard 5).2.2 = none
  ∧ ((mkScanner [1, 2, 3] 3).size < (mkScanner [1, 2, 3] 3).current + 5 →
      (((mkScanner [1, 2, 3] 3).Discard 5).2.1).Remaining < 0) :=
  discard_unchecked (mkScanner [1, 2, 3] 3) 5 (by decide)

/-- If the first accepted probe window is at offset k, the search loop
started anywhere at or before k breaks with the state one byte past k. -/
theorem scanLoop_reaches_header (data : List Nat) (sz sl L : Int) (k : Nat)
    (hk : k < data.length)
    (hok : parseOk (windowAt data k) = true)
    (hbefore : ∀ j : Nat, j < k → parseOk (windowAt data j) = false)
    (hlim : ∀ j : Nat, j ≤ k → ¬ (L > 0 ∧ (j : Int) > L)) :
    ∀ fuel j : Nat, j ≤ k → k - j < fuel →
      scanLoop fuel L (loopState data sz sl j) = .ok (loopState data sz sl (k + 1)) := by
  intro fuel
  induction fuel with
  | zero => intro j hj hf; omega
  | succ m ih =>
    intro j hj hf
    rw [scanLoop_step, if_neg (hlim j hj), if_neg (by omega : ¬ data.length ≤ j)]
    by_cases hjk : j = k
    · subst hjk
      rw [if_pos hok]
    · have hjlt : j < k := by omega
      rw [if_neg (by simp [hbefore j hjlt])]
      exact ih (j + 1) (by omega) (by omega)

/-- If no probed offset yields an accepted window, the search loop ends
with ErrNoExif, by source exhaustion or by passing the start limit. -/
theorem scanLoop_exhausts (data : List Nat) (sz sl L : Int)
    (h : ∀ j : Nat, j < data.length → ¬ (L > 0 ∧ (j : Int) > L) →
      parseOk (windowAt data j) = false) :
    ∀ fuel j : Nat, data.length - j < fuel →
      scanLoop fuel L (loopState data sz sl j) = .error .noExif := by
  intro fuel
  induction fuel with
  | zero => intro j hf; omega
  | succ m ih =>
    intro j hf
    rw [scanLoop_step]
    by_cases hlim : L > 0 ∧ (j : Int) > L
    · rw [if_pos hlim]
    · rw [if_neg hlim]
      by_cases hk : data.length ≤ j
      · rw [if_pos hk]
      · rw [if_neg hk, if_neg (by simp [h j (by omega) hlim])]
        exact ih (j + 1) (by omega)

/-- Breaking the loop one byte past offset k makes NewScannerLimit
return the scanner positioned exactly at k (Start, Current, reader). -/
theorem newScannerLimit_of_loop_ok (data : List Nat) (sz L sl : Int) (k : Nat)
    (h : scanLoop (scanFuel data L) L (loopState data sz sl 0) =
      .ok (loopState data sz sl (k + 1))) :
    NewScannerLimit data sz L sl = .ok (loopState data sz sl k) := by
  have hinit : ({ r := ⟨data, 0⟩, scanLimit := sl, size := sz, start := 0,
                  current := 0 } : Scanner) = loopState data sz sl 0 := by
    simp [loopState]
  have hd := discard_eval (loopState data sz sl (k + 1)) (-1)
    (by simp [loopState])
  simp only [NewScannerLimit, hinit, h, hd]
  simp only [loopState, Except.ok.injEq, Scanner.mk.injEq, Reader.mk.injEq]
  push_cast
  refine ⟨⟨trivial, by omega⟩, trivial, trivial, by omega, by omega⟩

/-- C1: if the first full 8-byte header of the source sits at offset k,
with k strictly below a positive start limit or the limit zero, then
NewScannerLimit succeeds with Start and Current both equal to k. -/
theorem newScannerLimit_finds_first_header (data : List Nat) (sz sl L : Int) (k : Nat)
    (hheader : ExifHeaderAt data k)
    (hfirst : ∀ j, j < k → ¬ ExifHeaderAt data j)
    (hlim : L = 0 ∨ (k : Int) < L) :
    ∃ s, NewScannerLimit data sz L sl = .ok s
      ∧ s.start = (k : Int) ∧ s.current = (k : Int) := by
  obtain ⟨hk8, hok⟩ := hheader
  have hklen : k < data.length := by omega
  have hokw : parseOk (windowAt data k) = true := by
    rw [windowAt_of_le data k hk8]; exact hok
  have hbefore : ∀ j, j < k → parseOk (windowAt data j) = false := by
    intro j hj
    have hj8 : j + 8 ≤ data.length := by omega
    have hnj := hfirst j hj
    rw [windowAt_of_le data j hj8]
    cases hpj : parseOk ((data.drop j).take 8) with
    | false => rfl
    | true => exact absurd ⟨hj8, hpj⟩ hnj
  have hlim2 : ∀ j : Nat, j ≤ k → ¬ (L > 0 ∧ (j : Int) > L) := by
    intro j hj
    rcases hlim with h0 | hlt
    · omega
    · omega
  have hr := scanLoop_reaches_header data sz sl L k hklen hokw hbefore hlim2
    (scanFuel data L) 0 (by omega) (by simp [scanFuel]; omega)
  refine ⟨loopState data sz sl k,
    newScannerLimit_of_loop_ok data sz L sl k hr, ?_, ?_⟩ <;> simp [loopState]

/-- C1 witness: a header injected at offset 1 with start limit 5. -/
theorem newScannerLimit_finds_first_header_witness :
    ∃ s, NewScannerLimit [0, 77, 77, 0, 42, 0, 0, 0, 0] 9 5 0 = .ok s
      ∧ s.start = ((1 : Nat) : Int) ∧ s.current = ((1 : Nat) : Int) :=
  newScannerLimit_finds_first_header [0, 77, 77, 0, 42, 0, 0, 0, 0] 9 0 5 1
    (by decide) (by decide) (by decide)

/-- C4 counterexample: a header starting exactly at the search limit is
found (Start = 2), not reported as NoExifFound; and a source ending in a
truncated little-endian signature, which contains no valid header, is
also accepted at offset 0 because the probe window is zero padded. -/
theorem newScannerLimit_at_limit_counterexample :
    startOf (NewScannerLimit [0, 0, 77, 77, 0, 42, 0, 0, 0, 0] 10 2 0) = some 2
  ∧ NewScannerLimit [0, 0, 77, 77, 0, 42, 0, 0, 0, 0] 10 2 0 ≠ .error .noExif
  ∧ startOf (NewScannerLimit [73, 73, 42] 3 0 0) = some 0
  ∧ NewScannerLimit [73, 73, 42] 3 0 0 ≠ .error .noExif := by decide

/-- C4 amended: construction fails with ErrNoExif exactly when no probed
offset - each offset up to AND INCLUDING a positive start limit, or every
offset up to source exhaustion when the limit is 0 - has a probe window
(zero padded near the end of the source) that ParseExifHeader accepts. -/
theorem newScannerLimit_noExif (data : List Nat) (sz L sl : Int) (hL : 0 ≤ L)
    (h : ∀ j : Nat, j < data.length → (L = 0 ∨ (j : Int) ≤ L) →
      parseOk (windowAt data j) = false) :
    NewScannerLimit data sz L sl = .error .noExif := by
  have h2 : ∀ j : Nat, j < data.length → ¬ (L > 0 ∧ (j : Int) > L) →
      parseOk (windowAt data j) = false := by
    intro j hj hn
    apply h j hj
    by_cases hL0 : L = 0
    · exact Or.inl hL0
    · exact Or.inr (by omega)
  have hr := scanLoop_exhausts data sz sl L h2 (scanFuel data L) 0
    (by simp [scanFuel]; omega)
  have hinit : ({ r := ⟨data, 0⟩, scanLimit := sl, size := sz, start := 0,
                  current := 0 } : Scanner) = loopState data sz sl 0 := by
    simp [loopState]
  simp only [NewScannerLimit, hinit, hr]

/-- C4 amended witness: a source whose only header starts strictly past
the limit is rejected with ErrNoExif. -/
theorem newScannerLimit_noExif_witness :
    NewScannerLimit [0, 0, 0, 77, 77, 0, 42, 0, 0, 0, 0] 11 2 0 = .error .noExif :=
  newScannerLimit_noExif [0, 0, 0, 77, 77, 0, 42, 0, 0, 0, 0] 11 2 0
    (by decide) (by decide)

end GoExif
